import Mathlib

/-
Verification of pydcc's generic-tree query engine (examples/read_QoX_metadata.py)
and, for the parts of the pydcc package whose implementation module is not in
this tree, a model built from the design document.

The generic value produced by the XML -> tree mapping is a scalar (text), a
mapping (ordered key/value pairs, keys unique per level in real documents), or
a sequence.  Python dictionaries preserve insertion order, so a mapping is
embedded as an ordered association list.
-/

inductive GVal where
  | scalar : String → GVal
  | mapping : List (String × GVal) → GVal
  | sequence : List GVal → GVal

mutual

/-- Structural boolean equality on generic values (Python `==` on the nested
dict/list/str values). -/
def GVal.beq : GVal → GVal → Bool
  | .scalar a, .scalar b => a == b
  | .mapping a, .mapping b => GVal.beqKVs a b
  | .sequence a, .sequence b => GVal.beqSeq a b
  | _, _ => false

/-- Boolean equality on the binding lists of two mappings. -/
def GVal.beqKVs : List (String × GVal) → List (String × GVal) → Bool
  | [], [] => true
  | (k, v) :: r, (k', v') :: r' => k == k' && GVal.beq v v' && GVal.beqKVs r r'
  | _, _ => false

/-- Boolean equality on the element lists of two sequences. -/
def GVal.beqSeq : List GVal → List GVal → Bool
  | [], [] => true
  | v :: r, v' :: r' => GVal.beq v v' && GVal.beqSeq r r'
  | _, _ => false

end

mutual

theorem GVal.beq_iff : ∀ a b : GVal, GVal.beq a b = true ↔ a = b
  | .scalar a, .scalar b => by simp [GVal.beq]
  | .scalar _, .mapping _ => by simp [GVal.beq]
  | .scalar _, .sequence _ => by simp [GVal.beq]
  | .mapping _, .scalar _ => by simp [GVal.beq]
  | .mapping a, .mapping b => by simp [GVal.beq, GVal.beqKVs_iff a b]
  | .mapping _, .sequence _ => by simp [GVal.beq]
  | .sequence _, .scalar _ => by simp [GVal.beq]
  | .sequence _, .mapping _ => by simp [GVal.beq]
  | .sequence a, .sequence b => by simp [GVal.beq, GVal.beqSeq_iff a b]

theorem GVal.beqKVs_iff : ∀ a b : List (String × GVal), GVal.beqKVs a b = true ↔ a = b
  | [], [] => by simp [GVal.beqKVs]
  | [], _ :: _ => by simp [GVal.beqKVs]
  | _ :: _, [] => by simp [GVal.beqKVs]
  | (k, v) :: r, (k', v') :: r' => by
      simp [GVal.beqKVs, GVal.beq_iff v v', GVal.beqKVs_iff r r', Prod.ext_iff,
        and_assoc]

theorem GVal.beqSeq_iff : ∀ a b : List GVal, GVal.beqSeq a b = true ↔ a = b
  | [], [] => by simp [GVal.beqSeq]
  | [], _ :: _ => by simp [GVal.beqSeq]
  | _ :: _, [] => by simp [GVal.beqSeq]
  | v :: r, v' :: r' => by
      simp [GVal.beqSeq, GVal.beq_iff v v', GVal.beqSeq_iff r r']

end

instance : DecidableEq GVal := fun a b =>
  decidable_of_iff (GVal.beq a b = true) (GVal.beq_iff a b)

/-- First binding wins, like lookup in a Python dict (whose keys are unique). -/
def pyDictLookup (k : String) : List (String × α) → Option α
  | [] => none
  | (k', v) :: rest => if k' = k then some v else pyDictLookup k rest

mutual

/--
`find_in_dict` from examples/read_QoX_metadata.py (the inner worker of
`search_metadata_results`): depth-first, pre-order search for the first dict
node whose `@refType` entry equals `reftype`.  In the source a found node is a
dict containing the key `@refType`, hence non-empty and truthy, so the
`if result:` test is exactly an `Option` match.
-/
def find_in_dict (reftype : String) : GVal → Option GVal
  | .scalar _ => none
  | .mapping kvs =>
      if pyDictLookup "@refType" kvs = some (.scalar reftype) then
        some (.mapping kvs)
      else
        findInDictKVs reftype kvs
  | .sequence items => findInDictItems reftype items

/-- The `for key, value in d.items()` loop of `find_in_dict`. -/
def findInDictKVs (reftype : String) : List (String × GVal) → Option GVal
  | [] => none
  | (_, v) :: rest =>
      match find_in_dict reftype v with
      | some r => some r
      | none => findInDictKVs reftype rest

/-- The `for item in d` loop of `find_in_dict`. -/
def findInDictItems (reftype : String) : List GVal → Option GVal
  | [] => none
  | v :: rest =>
      match find_in_dict reftype v with
      | some r => some r
      | none => findInDictItems reftype rest
end

mutual

/--
`find_list` from `get_all_quantities_from_list` in
examples/read_QoX_metadata.py: the same depth-first pre-order search, written
with `d.get('@refType') == list_refType`.  An absent key yields Python `None`,
which never equals the string argument, and a non-scalar value never equals a
string either, so the match condition coincides with `find_in_dict`'s.
-/
def find_list (list_refType : String) : GVal → Option GVal
  | .scalar _ => none
  | .mapping kvs =>
      if pyDictLookup "@refType" kvs = some (.scalar list_refType) then
        some (.mapping kvs)
      else
        findListKVs list_refType kvs

  | .sequence items => findListItems list_refType items

/-- The `for value in d.values()` loop of `find_list`. -/
def findListKVs (list_refType : String) : List (String × GVal) → Option GVal
  | [] => none
  | (_, v) :: rest =>
      match find_list list_refType v with
      | some r => some r
      | none => findListKVs list_refType rest

/-- The `for item in d` loop of `find_list`. -/
def findListItems (list_refType : String) : List GVal → Option GVal
  | [] => none
  | v :: rest =>
      match find_list list_refType v with
      | some r => some r
      | none => findListItems list_refType rest

end

/--
`search_metadata_results(data, reftype)` from examples/read_QoX_metadata.py:
the search runs only on the value of the top-level `metaData` key; when that
key is absent the function returns `None` without looking anywhere else.
-/
def search_metadata_results (data : List (String × GVal)) (reftype : String) :
    Option GVal :=
  match pyDictLookup "metaData" data with
  | some v => find_in_dict reftype v
  | none => none

mutual

/-- All nodes of a generic value in depth-first pre-order: each node before the
nodes of its children, mapping values and sequence items in order. -/
def GVal.preorder : GVal → List GVal
  | .scalar s => [.scalar s]
  | .mapping kvs => .mapping kvs :: GVal.preorderKVs kvs
  | .sequence items => .sequence items :: GVal.preorderSeq items

/-- Pre-order nodes of the values of a binding list. -/
def GVal.preorderKVs : List (String × GVal) → List GVal
  | [] => []
  | (_, v) :: rest => GVal.preorder v ++ GVal.preorderKVs rest

/-- Pre-order nodes of the elements of a sequence. -/
def GVal.preorderSeq : List GVal → List GVal
  | [] => []
  | v :: rest => GVal.preorder v ++ GVal.preorderSeq rest

end

/-- A node carries the requested `@refType`: it is a mapping whose `@refType`
entry is exactly the scalar `reftype`. -/
def isRefMatch (reftype : String) : GVal → Bool
  | .mapping kvs => pyDictLookup "@refType" kvs = some (.scalar reftype)
  | _ => false

mutual

theorem find_in_dict_eq_find? : ∀ (r : String) (t : GVal),
    find_in_dict r t = (GVal.preorder t).find? (isRefMatch r)
  | r, .scalar s => by simp [find_in_dict, GVal.preorder, isRefMatch]
  | r, .mapping kvs => by
      by_cases h : pyDictLookup "@refType" kvs = some (.scalar r) <;>
        simp [find_in_dict, GVal.preorder, isRefMatch, h,
          findInDictKVs_eq_find? r kvs]
  | r, .sequence items => by
      simp [find_in_dict, GVal.preorder, isRefMatch,
        findInDictItems_eq_find? r items]

theorem findInDictKVs_eq_find? : ∀ (r : String) (kvs : List (String × GVal)),
    findInDictKVs r kvs = (GVal.preorderKVs kvs).find? (isRefMatch r)
  | r, [] => by simp [findInDictKVs, GVal.preorderKVs]
  | r, (k, v) :: rest => by
      rw [findInDictKVs, find_in_dict_eq_find? r v]
      rw [show GVal.preorderKVs ((k, v) :: rest)
            = GVal.preorder v ++ GVal.preorderKVs rest from rfl]
      rw [List.find?_append, findInDictKVs_eq_find? r rest]
      cases (GVal.preorder v).find? (isRefMatch r) <;> simp [Option.or]

theorem findInDictItems_eq_find? : ∀ (r : String) (items : List GVal),
    findInDictItems r items = (GVal.preorderSeq items).find? (isRefMatch r)
  | r, [] => by simp [findInDictItems, GVal.preorderSeq]
  | r, v :: rest => by
      rw [findInDictItems, find_in_dict_eq_find? r v]
      rw [show GVal.preorderSeq (v :: rest)
            = GVal.preorder v ++ GVal.preorderSeq rest from rfl]
      rw [List.find?_append, findInDictItems_eq_find? r rest]
      cases (GVal.preorder v).find? (isRefMatch r) <;> simp [Option.or]

end

mutual

theorem find_list_eq_find_in_dict : ∀ (r : String) (t : GVal),
    find_list r t = find_in_dict r t
  | _, .scalar _ => by simp [find_list, find_in_dict]
  | r, .mapping kvs => by
      by_cases h : pyDictLookup "@refType" kvs = some (.scalar r) <;>
        simp [find_list, find_in_dict, h, findListKVs_eq r kvs]
  | r, .sequence items => by
      simp [find_list, find_in_dict, findListItems_eq r items]

theorem findListKVs_eq : ∀ (r : String) (kvs : List (String × GVal)),
    findListKVs r kvs = findInDictKVs r kvs
  | _, [] => by simp [findListKVs, findInDictKVs]
  | r, (k, v) :: rest => by
      rw [findListKVs, findInDictKVs, find_list_eq_find_in_dict r v,
        findListKVs_eq r rest]

theorem findListItems_eq : ∀ (r : String) (items : List GVal),
    findListItems r items = findInDictItems r items
  | _, [] => by simp [findListItems, findInDictItems]
  | r, v :: rest => by
      rw [findListItems, findInDictItems, find_list_eq_find_in_dict r v,
        findListItems_eq r rest]

end

/--
C3: for every generic tree and every refType string, `find_by_ref_type`
(realized by `find_in_dict` and `find_list` in
examples/read_QoX_metadata.py) traverses the tree depth-first in pre-order,
recursing into both mappings and sequences, and returns the first node whose
`@refType` attribute equals the argument; it returns `none` exactly when no
node in the tree carries that `@refType` value.
-/
theorem find_by_ref_type_preorder_first_match (reftype : String) (t : GVal) :
    find_in_dict reftype t = (GVal.preorder t).find? (isRefMatch reftype) ∧
    find_list reftype t = (GVal.preorder t).find? (isRefMatch reftype) ∧
    (find_in_dict reftype t = none ↔
      ∀ n ∈ GVal.preorder t, isRefMatch reftype n = false) := by
  refine ⟨find_in_dict_eq_find? reftype t, ?_, ?_⟩
  · rw [find_list_eq_find_in_dict, find_in_dict_eq_find?]
  · rw [find_in_dict_eq_find? reftype t, List.find?_eq_none]
    simp

/--
C9: `search_metadata_results` searches only within the `metaData` subtree of
its input: for every input mapping that lacks a top-level `metaData` key it
returns `none`, whatever else the input contains.
-/
theorem search_metadata_results_requires_metaData_key
    (data : List (String × GVal)) (reftype : String)
    (h : pyDictLookup "metaData" data = none) :
    search_metadata_results data reftype = none := by
  unfold search_metadata_results
  rw [h]

/-- A concrete input for C9: the mapping has no `metaData` key, yet a node
with `@refType = "X"` exists elsewhere in it; the search still returns
`none`. -/
theorem search_metadata_results_requires_metaData_key_witness :
    pyDictLookup "metaData"
        [("other", GVal.mapping [("@refType", GVal.scalar "X")])] = none ∧
    search_metadata_results
        [("other", GVal.mapping [("@refType", GVal.scalar "X")])] "X" = none ∧
    find_in_dict "X"
        (GVal.mapping [("other", GVal.mapping [("@refType", GVal.scalar "X")])])
      = some (GVal.mapping [("@refType", GVal.scalar "X")]) :=
  ⟨by decide,
   search_metadata_results_requires_metaData_key _ "X" (by decide),
   by decide⟩

/-
Embedding of `extract_quantities` / `get_all_quantities_from_list`.  Python
runtime errors (KeyError on a missing dict key, TypeError on indexing a
non-dict with a string, on `float()` of a non-string, or on using an
unhashable value as a dict key) are modelled with `Except`; the Python
`float()` parse of a string is an external-library behaviour and is taken as
a parameter `pf : String → Option Rat` (`none` models `ValueError`).
-/

inductive PyErr where
  | keyError
  | typeError
deriving DecidableEq

/-- The value slot of a quantity entry after the `try: value = float(value)`
statement: either the parsed number or the original text. -/
inductive PyNumOrText where
  | num : Rat → PyNumOrText
  | text : String → PyNumOrText
deriving DecidableEq

/-- `float(value)` guarded by `except ValueError: pass`: a scalar string is
parsed when possible and kept as text otherwise; `float()` of a dict or list
raises TypeError, which the source does not catch. -/
def pyFloatTry (pf : String → Option Rat) : GVal → Except PyErr PyNumOrText
  | .scalar s => .ok (match pf s with | some q => .num q | none => .text s)
  | _ => .error .typeError

/-- Python `g[k]` for a string key: mapping lookup (KeyError when absent);
indexing a list or a string with a string key raises TypeError. -/
def pyGetItem (g : GVal) (k : String) : Except PyErr GVal :=
  match g with
  | .mapping kvs =>
      match pyDictLookup k kvs with
      | some v => .ok v
      | none => .error .keyError
  | _ => .error .typeError

/-- Using a value as a Python dict key: strings hash, dicts and lists are
unhashable (TypeError). -/
def pyHashKey : GVal → Except PyErr String
  | .scalar s => .ok s
  | _ => .error .typeError

/-- Python `k in g` for the non-empty literal keys used by the source: key
membership on a dict, element membership on a list, substring test on a
string. -/
def pyContains (k : String) (g : GVal) : Bool :=
  match g with
  | .mapping kvs => (pyDictLookup k kvs).isSome
  | .sequence items => items.contains (GVal.scalar k)
  | .scalar s => (s.splitOn k).length ≠ 1

/-- Python dict assignment `d[k] = v`: an existing binding is replaced in
place, a fresh key is appended. -/
def pyDictInsert (k : String) (v : α) : List (String × α) → List (String × α)
  | [] => [(k, v)]
  | (k', v') :: rest =>
      if k' = k then (k, v) :: rest else (k', v') :: pyDictInsert k v rest

/-- The result dictionary of `extract_quantities`: refType key to the pair of
the (possibly parsed) value and the raw `unitXMLList` payload. -/
abbrev QDict := List (String × (PyNumOrText × GVal))

/--
One step of the `isinstance(d, list)` branch of `extract_quantities`: only
dict items carrying `@refType` and `realListXMLList` contribute; the payload
is indexed for `valueXMLList` then `unitXMLList`, the value is run through
`float()` with `ValueError` suppressed, and the entry is stored under the
item's own `@refType`.
-/
def processListItem (pf : String → Option Rat) (acc : QDict) (item : GVal) :
    Except PyErr QDict :=
  match item with
  | .mapping kvs =>
      match pyDictLookup "@refType" kvs with
      | none => .ok acc
      | some rt =>
          match pyDictLookup "realListXMLList" kvs with
          | none => .ok acc
          | some payload => do
              let v ← pyGetItem payload "valueXMLList"
              let u ← pyGetItem payload "unitXMLList"
              let val ← pyFloatTry pf v
              let key ← pyHashKey rt
              pure (pyDictInsert key (val, u) acc)
  | _ => .ok acc

/--
One step of the inner `for quantity in value` loop of the `isinstance(d,
dict)` branch of `extract_quantities`.  Unlike the list branch there is no
`isinstance(quantity, dict)` guard, so Python's `in` runs on whatever the
item is; both keys present leads to the same indexing chain.
-/
def processDictBranchItem (pf : String → Option Rat) (acc : QDict)
    (q : GVal) : Except PyErr QDict :=
  if pyContains "@refType" q && pyContains "realListXMLList" q then do
    let payload ← pyGetItem q "realListXMLList"
    let v ← pyGetItem payload "valueXMLList"
    let u ← pyGetItem payload "unitXMLList"
    let val ← pyFloatTry pf v
    let rt ← pyGetItem q "@refType"
    let key ← pyHashKey rt
    pure (pyDictInsert key (val, u) acc)
  else .ok acc

/-- The `for item in d` loop of the list branch of `extract_quantities`. -/
def extractFromListItems (pf : String → Option Rat) :
    List GVal → QDict → Except PyErr QDict
  | [], acc => .ok acc
  | item :: rest, acc =>
      match processListItem pf acc item with
      | .error e => .error e
      | .ok acc' => extractFromListItems pf rest acc'

/-- The inner `for quantity in value` loop of the dict branch. -/
def extractFromDictItems (pf : String → Option Rat) :
    List GVal → QDict → Except PyErr QDict
  | [], acc => .ok acc
  | q :: rest, acc =>
      match processDictBranchItem pf acc q with
      | .error e => .error e
      | .ok acc' => extractFromDictItems pf rest acc'

/-- The `for key, value in d.items()` loop of the dict branch of
`extract_quantities`: only a `quantity` key bound to a list contributes. -/
def extractFromMapEntries (pf : String → Option Rat) :
    List (String × GVal) → QDict → Except PyErr QDict
  | [], acc => .ok acc
  | (k, v) :: rest, acc =>
      if k = "quantity" then
        match v with
        | .sequence qs =>
            match extractFromDictItems pf qs acc with
            | .error e => .error e
            | .ok acc' => extractFromMapEntries pf rest acc'
        | _ => extractFromMapEntries pf rest acc
      else extractFromMapEntries pf rest acc

/-- `extract_quantities(d)` from examples/read_QoX_metadata.py: a list input
is scanned item by item; a dict input is scanned for a `quantity` key bound
to a list; anything else yields the empty dict. -/
def extract_quantities (pf : String → Option Rat) (d : GVal) :
    Except PyErr QDict :=
  match d with
  | .sequence items => extractFromListItems pf items []
  | .mapping kvs => extractFromMapEntries pf kvs []
  | .scalar _ => .ok []

/-- Python `g.get(k, default)`.  `find_list` only ever returns mappings, so
the non-mapping case is unreachable in `get_all_quantities_from_list`. -/
def pyGetDefault (g : GVal) (k : String) (d : GVal) : GVal :=
  match g with
  | .mapping kvs => (pyDictLookup k kvs).getD d
  | _ => d

/--
`get_all_quantities_from_list(list_refType, data)` from
examples/read_QoX_metadata.py.  A node found by `find_list` is a dict
containing `@refType`, hence non-empty and truthy, so `if specific_list:` is
exactly the `Option` match.
-/
def get_all_quantities_from_list (pf : String → Option Rat)
    (list_refType : String) (data : GVal) : Except PyErr QDict :=
  match find_list list_refType data with
  | some specific_list =>
      extract_quantities pf (pyGetDefault specific_list "quantity" (.sequence []))
  | none => .ok []

deriving instance DecidableEq for Except

/-- `float()` with `ValueError` suppressed, on a string already known to be a
scalar: parsed number on success, the original text on failure. -/
def pyFloatOrText (pf : String → Option Rat) (s : String) : PyNumOrText :=
  match pf s with
  | some q => .num q
  | none => .text s

/--
The dictionary entry a quantity item contributes: present exactly when the
item is a dict carrying an `@refType` attribute (a scalar) and a
`realListXMLList` payload that is a dict holding a scalar `valueXMLList` and
a `unitXMLList`; the entry is keyed by the item's own `@refType` and pairs
the parsed-or-text value with the unit payload.
-/
def entryOf (pf : String → Option Rat) : GVal → Option (String × (PyNumOrText × GVal))
  | .mapping kvs =>
      match pyDictLookup "@refType" kvs with
      | none => none
      | some rt =>
          match pyDictLookup "realListXMLList" kvs with
          | none => none
          | some pl =>
              match rt with
              | .scalar r =>
                  match pl with
                  | .mapping pkvs =>
                      match pyDictLookup "valueXMLList" pkvs with
                      | some (.scalar v) =>
                          match pyDictLookup "unitXMLList" pkvs with
                          | some u => some (r, (pyFloatOrText pf v, u))
                          | none => none
                      | _ => none
                  | _ => none
              | _ => none
  | _ => none

/--
Well-formedness of a quantity item as the extraction code assumes it: when
the item is a dict carrying both `@refType` and `realListXMLList`, the
`@refType` is a scalar and the payload is a dict with a scalar
`valueXMLList` and a `unitXMLList` entry.  Items lacking either key, and
non-dict items, are unconstrained (the code skips them).
-/
def quantityWF : GVal → Bool
  | .mapping kvs =>
      match pyDictLookup "@refType" kvs with
      | none => true
      | some rt =>
          match pyDictLookup "realListXMLList" kvs with
          | none => true
          | some pl =>
              match rt with
              | .scalar _ =>
                  match pl with
                  | .mapping pkvs =>
                      (match pyDictLookup "valueXMLList" pkvs with
                       | some (.scalar _) => true
                       | _ => false) &&
                      (pyDictLookup "unitXMLList" pkvs).isSome
                  | _ => false
              | _ => false
  | _ => true

theorem pyDictLookup_pyDictInsert (k k' : String) (v : α)
    (l : List (String × α)) :
    pyDictLookup k (pyDictInsert k' v l)
      = if k' = k then some v else pyDictLookup k l := by
  induction l with
  | nil => by_cases h : k' = k <;> simp [pyDictInsert, pyDictLookup, h]
  | cons hd tl ih =>
      obtain ⟨k0, v0⟩ := hd
      by_cases h0 : k0 = k' <;> by_cases h1 : k' = k <;>
        simp_all [pyDictInsert, pyDictLookup]

/-- The fold the list branch performs, expressed through `entryOf`. -/
def qFoldEntries (pf : String → Option Rat) : List GVal → QDict → QDict
  | [], acc => acc
  | c :: rest, acc =>
      qFoldEntries pf rest
        (match entryOf pf c with
         | some rp => pyDictInsert rp.1 rp.2 acc
         | none => acc)

theorem processListItem_wf (pf : String → Option Rat) (acc : QDict)
    (c : GVal) (h : quantityWF c = true) :
    processListItem pf acc c =
      .ok (match entryOf pf c with
           | some rp => pyDictInsert rp.1 rp.2 acc
           | none => acc) := by
  cases c with
  | scalar s => simp [processListItem, entryOf]
  | sequence items => simp [processListItem, entryOf]
  | mapping kvs =>
      rw [processListItem, entryOf]
      cases h1 : pyDictLookup "@refType" kvs with
      | none => simp
      | some rt =>
          cases h2 : pyDictLookup "realListXMLList" kvs with
          | none => simp
          | some pl =>
              rw [quantityWF] at h
              rw [h1, h2] at h
              cases rt with
              | mapping _ => simp at h
              | sequence _ => simp at h
              | scalar r =>
                  cases pl with
                  | scalar _ => simp at h
                  | sequence _ => simp at h
                  | mapping pkvs =>
                      simp only [Bool.and_eq_true, Option.isSome_iff_exists] at h
                      obtain ⟨hv, u, hu⟩ := h
                      cases h3 : pyDictLookup "valueXMLList" pkvs with
                      | none => rw [h3] at hv; simp at hv
                      | some vv =>
                          cases vv with
                          | mapping _ => rw [h3] at hv; simp at hv
                          | sequence _ => rw [h3] at hv; simp at hv
                          | scalar v =>
                              simp [pyGetItem, h3, hu, pyFloatTry, pyHashKey,
                                pyFloatOrText, Bind.bind, Except.bind, pure,
                                Except.pure]

theorem extractFromListItems_wf (pf : String → Option Rat) :
    ∀ (items : List GVal) (acc : QDict),
      (∀ c ∈ items, quantityWF c = true) →
      extractFromListItems pf items acc = .ok (qFoldEntries pf items acc) := by
  intro items
  induction items with
  | nil => intro acc _; rfl
  | cons c rest ih =>
      intro acc h
      rw [extractFromListItems,
        processListItem_wf pf acc c (h c (List.mem_cons_self c rest)),
        qFoldEntries]
      exact ih _ (fun x hx => h x (List.mem_cons_of_mem _ hx))

theorem qFoldEntries_lookup_of_no_key (pf : String → Option Rat) :
    ∀ (items : List GVal) (acc : QDict) (r : String),
      (∀ c ∈ items, ∀ rp, entryOf pf c = some rp → rp.1 ≠ r) →
      pyDictLookup r (qFoldEntries pf items acc) = pyDictLookup r acc := by
  intro items
  induction items with
  | nil => intro acc r _; rfl
  | cons c0 rest ih =>
      intro acc r h
      rw [qFoldEntries]
      cases he : entryOf pf c0 with
      | none => exact ih _ r (fun x hx => h x (List.mem_cons_of_mem _ hx))
      | some rp =>
          rw [ih _ r (fun x hx => h x (List.mem_cons_of_mem _ hx)),
            pyDictLookup_pyDictInsert]
          simp [h c0 (List.mem_cons_self c0 rest) rp he]

theorem qFoldEntries_lookup_mem (pf : String → Option Rat) :
    ∀ (items : List GVal) (acc : QDict),
      ((items.filterMap (entryOf pf)).map Prod.fst).Nodup →
      ∀ c ∈ items, ∀ r p, entryOf pf c = some (r, p) →
      pyDictLookup r (qFoldEntries pf items acc) = some p := by
  intro items
  induction items with
  | nil => intro acc _ c hc; cases hc
  | cons c0 rest ih =>
      intro acc hnd c hc r p he
      rw [qFoldEntries]
      rcases List.mem_cons.1 hc with rfl | hc'
      · rw [he]
        rw [List.filterMap_cons, he] at hnd
        simp only [List.map_cons, List.nodup_cons] at hnd
        have hno : ∀ x ∈ rest, ∀ rp, entryOf pf x = some rp → rp.1 ≠ r := by
          intro x hx rp hrp hcontra
          exact hnd.1 (by
            rw [← hcontra]
            exact List.mem_map_of_mem Prod.fst
              (List.mem_filterMap.2 ⟨x, hx, hrp⟩))
        rw [qFoldEntries_lookup_of_no_key pf rest _ r hno,
          pyDictLookup_pyDictInsert]
        simp
      · have hnd' : ((rest.filterMap (entryOf pf)).map Prod.fst).Nodup := by
          rw [List.filterMap_cons] at hnd
          cases he0 : entryOf pf c0 with
          | none => rw [he0] at hnd; exact hnd
          | some rp0 =>
              rw [he0] at hnd
              simp only [List.map_cons, List.nodup_cons] at hnd
              exact hnd.2
        cases he0 : entryOf pf c0 <;> exact ih _ hnd' c hc' r p he

theorem qFoldEntries_lookup_inv (pf : String → Option Rat) :
    ∀ (items : List GVal) (acc : QDict) (r : String) (p : PyNumOrText × GVal),
      pyDictLookup r (qFoldEntries pf items acc) = some p →
      (∃ c ∈ items, entryOf pf c = some (r, p)) ∨ pyDictLookup r acc = some p := by
  intro items
  induction items with
  | nil => intro acc r p h; exact Or.inr h
  | cons c0 rest ih =>
      intro acc r p h
      rw [qFoldEntries] at h
      cases he : entryOf pf c0 with
      | none =>
          rw [he] at h
          rcases ih _ _ _ h with ⟨c, hc, hce⟩ | h2
          · exact Or.inl ⟨c, List.mem_cons_of_mem _ hc, hce⟩
          · exact Or.inr h2
      | some rp =>
          rw [he] at h
          rcases ih _ _ _ h with ⟨c, hc, hce⟩ | h2
          · exact Or.inl ⟨c, List.mem_cons_of_mem _ hc, hce⟩
          · rw [pyDictLookup_pyDictInsert] at h2
            by_cases hr : rp.1 = r
            · rw [if_pos hr] at h2
              refine Or.inl ⟨c0, List.mem_cons_self c0 rest, ?_⟩
              rw [he]
              cases h2
              rw [← hr]
            · rw [if_neg hr] at h2
              exact Or.inr h2

/-- An arbitrary concrete instantiation of the `float()`-parse parameter,
used to evaluate the universally quantified theorems at concrete inputs. -/
def pfNoParse : String → Option Rat := fun _ => none

/--
C4: for every generic tree and listRefType, `get_all_quantities_from_list`
first locates the node whose `@refType` equals `listRefType`, then for each
of its quantity children carrying both an `@refType` attribute and a
`realListXMLList` payload returns an entry keyed by that child's own
`@refType` whose value pairs `valueXMLList` (parsed as a number when
possible, otherwise kept as the original text) with `unitXMLList`; children
lacking either key contribute nothing and cause no error.
-/
theorem get_all_quantities_from_list_extracts_entries
    (pf : String → Option Rat) (listRefType : String) (data : GVal)
    (kvs : List (String × GVal)) (children : List GVal)
    (hfind : find_list listRefType data = some (.mapping kvs))
    (hq : pyDictLookup "quantity" kvs = some (.sequence children))
    (hwf : ∀ c ∈ children, quantityWF c = true)
    (hnd : ((children.filterMap (entryOf pf)).map Prod.fst).Nodup) :
    ∃ m, get_all_quantities_from_list pf listRefType data = .ok m ∧
      (∀ c ∈ children, ∀ r p, entryOf pf c = some (r, p) →
        pyDictLookup r m = some p) ∧
      (∀ r p, pyDictLookup r m = some p →
        ∃ c ∈ children, entryOf pf c = some (r, p)) := by
  refine ⟨qFoldEntries pf children [], ?_, ?_, ?_⟩
  · rw [get_all_quantities_from_list, hfind]
    show extract_quantities pf
      (pyGetDefault (.mapping kvs) "quantity" (.sequence [])) = _
    rw [pyGetDefault, hq, Option.getD_some]
    show extractFromListItems pf children [] = _
    exact extractFromListItems_wf pf children [] hwf
  · intro c hc r p he
    exact qFoldEntries_lookup_mem pf children [] hnd c hc r p he
  · intro r p h
    rcases qFoldEntries_lookup_inv pf children [] r p h with h1 | h2
    · exact h1
    · exact absurd h2 (by simp [pyDictLookup])

/-- Concrete data for the C4 witness: a matched list node with one
well-formed quantity child and one child lacking `@refType`. -/
def c4q1 : GVal :=
  .mapping [("@refType", .scalar "QoX_evaluationSize"),
    ("realListXMLList",
      .mapping [("valueXMLList", .scalar "10.0"),
        ("unitXMLList", .scalar "\\one")])]

/-- A quantity child without `@refType` or `realListXMLList`: skipped. -/
def c4q2 : GVal := .mapping [("name", .scalar "accuracy")]

/-- The C4 witness tree. -/
def c4data : GVal :=
  .mapping [("@refType", .scalar "QoX_completeness"),
    ("quantity", .sequence [c4q1, c4q2])]

/-- The C4 theorem evaluated on `c4data`: the hypotheses hold concretely, the
extraction succeeds, and the well-formed child's entry is present under its
own refType. -/
theorem get_all_quantities_from_list_extracts_entries_witness :
    ∃ m, get_all_quantities_from_list pfNoParse "QoX_completeness" c4data
        = .ok m ∧
      pyDictLookup "QoX_evaluationSize" m
        = some (PyNumOrText.text "10.0", GVal.scalar "\\one") := by
  obtain ⟨m, h1, h2, h3⟩ :=
    get_all_quantities_from_list_extracts_entries pfNoParse "QoX_completeness"
      c4data
      [("@refType", .scalar "QoX_completeness"),
        ("quantity", .sequence [c4q1, c4q2])]
      [c4q1, c4q2] (by decide) (by decide) (by decide) (by decide)
  exact ⟨m, h1, h2 c4q1 (by simp) "QoX_evaluationSize"
    (PyNumOrText.text "10.0", GVal.scalar "\\one") (by decide)⟩

/-- Discriminator for the sequence constructor (Python `isinstance(v, list)`). -/
def GVal.isSeq : GVal → Bool
  | .sequence _ => true
  | _ => false

theorem extractFromMapEntries_no_quantity_seq (pf : String → Option Rat) :
    ∀ (entries : List (String × GVal)) (acc : QDict),
      (∀ kv ∈ entries, kv.1 = "quantity" → kv.2.isSeq = false) →
      extractFromMapEntries pf entries acc = .ok acc := by
  intro entries
  induction entries with
  | nil => intro acc _; rfl
  | cons kv rest ih =>
      intro acc h
      obtain ⟨k, v⟩ := kv
      have hrest := ih acc (fun x hx => h x (List.mem_cons_of_mem _ hx))
      by_cases hk : k = "quantity"
      · cases v with
        | scalar s => simpa [extractFromMapEntries, hk] using hrest
        | mapping m => simpa [extractFromMapEntries, hk] using hrest
        | sequence qs =>
            exact absurd (h (k, .sequence qs) (List.mem_cons_self _ rest) hk)
              (by simp [GVal.isSeq])
      · simpa [extractFromMapEntries, hk] using hrest

/--
C10 counterexample data: the matched node's `quantity` entry is a bare
mapping (the collapsed single-child form), but that mapping itself carries a
`quantity` key bound to a sequence, which the dict branch of
`extract_quantities` extracts.
-/
def c10q : GVal :=
  .mapping [("@refType", .scalar "X"),
    ("realListXMLList",
      .mapping [("valueXMLList", .scalar "abc"),
        ("unitXMLList", .scalar "u")])]

/-- The inner bindings of the bare quantity mapping of the counterexample. -/
def c10inner : List (String × GVal) := [("quantity", .sequence [c10q])]

/-- The bindings of the matched node of the counterexample. -/
def c10kvs : List (String × GVal) :=
  [("@refType", .scalar "L"), ("quantity", .mapping c10inner)]

/-- The C10 counterexample tree. -/
def c10data : GVal := .mapping c10kvs

/--
C10 counterexample: a tree on which the matched node's `quantity` entry is a
bare mapping — not a sequence — yet `get_all_quantities_from_list` returns a
non-empty mapping, because the dict branch of `extract_quantities` scans the
bare mapping for a nested `quantity` key bound to a list.
-/
theorem get_all_quantities_from_list_bare_mapping_nonempty_cex :
    find_list "L" c10data = some (.mapping c10kvs) ∧
    pyDictLookup "quantity" c10kvs = some (.mapping c10inner) ∧
    get_all_quantities_from_list pfNoParse "L" c10data
      = .ok [("X", (PyNumOrText.text "abc", GVal.scalar "u"))] ∧
    get_all_quantities_from_list pfNoParse "L" c10data ≠ .ok [] :=
  ⟨by decide, by decide, by decide, by decide⟩

/--
C10 amended: `get_all_quantities_from_list` returns the empty mapping — not
an error — when no node carries the given refType, and when the matched
node's `quantity` entry is absent, is a scalar, or is a bare mapping (the
collapsed single-quantity-child form) that does not itself bind a
`quantity` key to a sequence; a non-empty result therefore requires the
`quantity` entry to be a sequence or a mapping with a nested
`quantity`-sequence binding.
-/
theorem get_all_quantities_from_list_empty_cases
    (pf : String → Option Rat) (listRefType : String) (data : GVal) :
    (find_list listRefType data = none →
      get_all_quantities_from_list pf listRefType data = .ok []) ∧
    (∀ kvs, find_list listRefType data = some (.mapping kvs) →
      pyDictLookup "quantity" kvs = none →
      get_all_quantities_from_list pf listRefType data = .ok []) ∧
    (∀ kvs s, find_list listRefType data = some (.mapping kvs) →
      pyDictLookup "quantity" kvs = some (.scalar s) →
      get_all_quantities_from_list pf listRefType data = .ok []) ∧
    (∀ kvs m, find_list listRefType data = some (.mapping kvs) →
      pyDictLookup "quantity" kvs = some (.mapping m) →
      (∀ kv ∈ m, kv.1 = "quantity" → kv.2.isSeq = false) →
      get_all_quantities_from_list pf listRefType data = .ok []) := by
  refine ⟨?_, ?_, ?_, ?_⟩
  · intro h
    rw [get_all_quantities_from_list, h]
  · intro kvs h hq
    rw [get_all_quantities_from_list, h]
    show extract_quantities pf
      (pyGetDefault (.mapping kvs) "quantity" (.sequence [])) = _
    rw [pyGetDefault, hq]
    rfl
  · intro kvs s h hq
    rw [get_all_quantities_from_list, h]
    show extract_quantities pf
      (pyGetDefault (.mapping kvs) "quantity" (.sequence [])) = _
    rw [pyGetDefault, hq, Option.getD_some]
    rfl
  · intro kvs m h hq hm
    rw [get_all_quantities_from_list, h]
    show extract_quantities pf
      (pyGetDefault (.mapping kvs) "quantity" (.sequence [])) = _
    rw [pyGetDefault, hq, Option.getD_some]
    show extractFromMapEntries pf m [] = _
    exact extractFromMapEntries_no_quantity_seq pf m [] hm

/-- A realistic collapsed single quantity child: its bindings are the
child's own attributes, with no nested `quantity` key. -/
def c10single : List (String × GVal) :=
  [("@refType", .scalar "QoX_evaluationSize"),
    ("realListXMLList",
      .mapping [("valueXMLList", .scalar "10.0"),
        ("unitXMLList", .scalar "\\one")])]

/-- A tree whose matched node has a single collapsed quantity child. -/
def c10dataSingle : GVal :=
  .mapping [("@refType", .scalar "L"), ("quantity", .mapping c10single)]

/-- The C10 amended theorem evaluated concretely: an absent refType and a
collapsed single quantity child both yield the empty mapping without
error. -/
theorem get_all_quantities_from_list_empty_cases_witness :
    get_all_quantities_from_list pfNoParse "Z" c10dataSingle = .ok [] ∧
    get_all_quantities_from_list pfNoParse "L" c10dataSingle = .ok [] :=
  ⟨(get_all_quantities_from_list_empty_cases pfNoParse "Z" c10dataSingle).1
      (by decide),
   (get_all_quantities_from_list_empty_cases pfNoParse "L" c10dataSingle).2.2.2
      [("@refType", .scalar "L"), ("quantity", .mapping c10single)] c10single
      (by decide) (by decide) (by decide)⟩

/-
The pydcc package module itself (dcc/dcc.py) is not part of this tree; only
its unit tests and an example consumer are.  The status report, trust store,
signature verifier and loading facade below are therefore modelled from the
design document (sections 3, 4.4-4.7, 6, 7), with external collaborators
(file/URL fetching, XML parsing, cryptographic primitives, revocation
source, the compression codec) taken as parameters or given minimal
spec-faithful models.
-/

/-- Modelled from the spec: the fixed enumeration of check kinds of the
status report (section 3; the tests use `DCCStatusType` members of these
names). -/
inductive DCCStatusType where
  | IS_LOADED
  | VALID_SCHEMA
  | IS_SIGNED
  | VALID_SIGNATURE
deriving DecidableEq

/-- Modelled from the spec: the tri-state result of one check
(not-applicable / pass / fail, section 3). -/
inductive TriState where
  | notApplicable
  | pass
  | fail
deriving DecidableEq

/-- Every check kind, for the summary's "every check kind" quantification. -/
def allStatusKinds : List DCCStatusType :=
  [.IS_LOADED, .VALID_SCHEMA, .IS_SIGNED, .VALID_SIGNATURE]

/-- Modelled from the spec: the status report maps each check kind to a
tri-state result (section 3). -/
structure StatusReport where
  loadedState : TriState
  schemaState : TriState
  signedState : TriState
  sigValidState : TriState
deriving DecidableEq

/-- The tri-state of one check kind. -/
def StatusReport.stateOf (r : StatusReport) : DCCStatusType → TriState
  | .IS_LOADED => r.loadedState
  | .VALID_SCHEMA => r.schemaState
  | .IS_SIGNED => r.signedState
  | .VALID_SIGNATURE => r.sigValidState

/-- The boolean `status_report.is_signed` surface: true exactly when the
IS_SIGNED check passed. -/
def StatusReport.is_signed (r : StatusReport) : Bool :=
  r.signedState == .pass

/-- The `status_report.valid_signature` surface: unset (`none`) while the
check is not applicable, otherwise its boolean verdict. -/
def StatusReport.valid_signature (r : StatusReport) : Option Bool :=
  match r.sigValidState with
  | .notApplicable => none
  | .pass => some true
  | .fail => some false

/-- Modelled from the spec: `get_status_summary(ignore_list)` is true iff
every check kind not in the ignore list is in the pass state, with
not-applicable checks counting as pass-equivalent (section 4.6). -/
def get_status_summary (r : StatusReport)
    (ignore_list : List DCCStatusType) : Bool :=
  allStatusKinds.all fun k =>
    ignore_list.contains k || r.stateOf k != .fail

theorem mem_allStatusKinds (k : DCCStatusType) : k ∈ allStatusKinds := by
  cases k <;> simp [allStatusKinds]

/--
C5: for every status report and ignore lists A ⊆ B, a true summary under A
stays true under B (enlarging the ignore list can only turn false into
true), and the summary is true iff every check kind outside the ignore list
is not in the fail state (not-applicable counting as pass-equivalent).
-/
theorem get_status_summary_monotone (r : StatusReport)
    (A B : List DCCStatusType) (hAB : ∀ k, k ∈ A → k ∈ B) :
    (get_status_summary r A = true → get_status_summary r B = true) ∧
    ∀ L : List DCCStatusType,
      (get_status_summary r L = true ↔
        ∀ k, k ∉ L → r.stateOf k ≠ .fail) := by
  have hiff : ∀ L : List DCCStatusType,
      get_status_summary r L = true ↔ ∀ k, k ∉ L → r.stateOf k ≠ .fail := by
    intro L
    rw [get_status_summary, List.all_eq_true]
    constructor
    · intro h k hk
      have := h k (mem_allStatusKinds k)
      rcases Bool.or_eq_true_iff.1 this with h1 | h1
      · exact absurd (by simpa using h1) hk
      · simpa using h1
    · intro h k _
      by_cases hk : k ∈ L
      · exact Bool.or_eq_true_iff.2 (Or.inl (by simpa using hk))
      · exact Bool.or_eq_true_iff.2 (Or.inr (by simpa using h k hk))
  refine ⟨?_, hiff⟩
  intro hA
  rw [hiff B]
  intro k hkB
  exact (hiff A).1 hA k (fun hkA => hkB (hAB k hkA))

/-- The C5 theorem evaluated concretely: the report of the unsigned test
fixture (loaded, schema unchecked, unsigned) summarizes false with an empty
ignore list and true once the failing kinds are ignored. -/
theorem get_status_summary_monotone_witness :
    get_status_summary
        ⟨.pass, .notApplicable, .fail, .notApplicable⟩
        [.VALID_SCHEMA, .IS_SIGNED, .VALID_SIGNATURE] = true :=
  (get_status_summary_monotone
    ⟨.pass, .notApplicable, .fail, .notApplicable⟩
    [.IS_SIGNED] [.VALID_SCHEMA, .IS_SIGNED, .VALID_SIGNATURE]
    (by decide)).1 (by decide)

/-- Modelled from the spec: an X.509 certificate as the chain logic sees it —
subject, issuer and a validity interval (section 3); the public key and raw
bytes only feed the external cryptographic primitives, which are
parameters. -/
structure Certificate where
  subject : String
  issuer : String
  validFrom : Int
  validTo : Int
deriving DecidableEq

/-- Modelled from the spec: the trust store holds an optional root and an
ordered list of intermediate certificates (sections 3, 4.4). -/
structure DCCTrustStore where
  root : Option Certificate
  intermediates : List Certificate
deriving DecidableEq

/-- Modelled from the spec: chain building fails with `ChainBroken` when no
path reaches the root and `ExpiredCertificate` when a link is outside its
validity window (section 4.4). -/
inductive ChainError where
  | chainBroken
  | expiredCertificate
deriving DecidableEq

/-- A certificate's validity window contains the verification time. -/
def certValid (now : Int) (c : Certificate) : Bool :=
  decide (c.validFrom ≤ now) && decide (now ≤ c.validTo)

/--
Modelled from the spec: connect a certificate through the available
intermediates up to the root, validating each issuer-to-subject link's
signature (external primitive `sigOk`) and each certificate's validity
window.  The fuel bounds the path length by the number of intermediates.
-/
def chainFrom (sigOk : Certificate → Certificate → Bool) (now : Int)
    (root : Certificate) :
    Nat → List Certificate → Certificate → Except ChainError (List Certificate)
  | fuel, avail, c =>
      if certValid now c = false then .error .expiredCertificate
      else if c.issuer = root.subject && sigOk c root then
        if certValid now root then .ok [c, root]
        else .error .expiredCertificate
      else
        match fuel with
        | 0 => .error .chainBroken
        | fuel' + 1 =>
            match avail.find? (fun i => c.issuer = i.subject && sigOk c i) with
            | none => .error .chainBroken
            | some i =>
                match chainFrom sigOk now root fuel' (avail.erase i) i with
                | .ok rest => .ok (c :: rest)
                | .error e => .error e

/-- Modelled from the spec: `build_chain(signer)` of the trust store
(section 4.4); with no root loaded no path can reach a root. -/
def build_chain (sigOk : Certificate → Certificate → Bool) (now : Int)
    (ts : DCCTrustStore) (signer : Certificate) :
    Except ChainError (List Certificate) :=
  match ts.root with
  | none => .error .chainBroken
  | some root =>
      chainFrom sigOk now root ts.intermediates.length ts.intermediates signer

/-- Modelled from the spec: the dedicated revocation failure (section 4.4). -/
inductive RevocationFailure where
  | revoked
deriving DecidableEq

/-- Modelled from the spec: `check_revocation(chain)` consults the external
revocation source for each certificate of the chain; any revoked
certificate fails the whole chain (section 4.4). -/
def check_revocation (revoked : Certificate → Bool)
    (chain : List Certificate) : Except RevocationFailure Unit :=
  if chain.any revoked then .error .revoked else .ok ()

/-- Modelled from the spec: the signature record extracted from a signed
document — signer certificate, signature bytes and declared signing time
(section 3); the digest input is reconstructed by the external
canonicalization, folded into the cryptographic-check parameter. -/
structure SignatureRecord where
  signerCert : Certificate
  signatureBytes : List Nat
  declaredSigningTime : String
deriving DecidableEq

/-- Modelled from the spec: the sub-kinds of `DCCSignatureError` — integrity
failure is distinguished from trust (chain) failure and from revocation
(sections 4.5, 7). -/
inductive SignatureErrorKind where
  | integrity
  | chain : ChainError → SignatureErrorKind
  | revocation
deriving DecidableEq

/-- The five strictly ordered steps of the signature verifier (section 4.5). -/
inductive VStep where
  | extract
  | canonicalize
  | cryptoCheck
  | trustCheck
  | timestampExtraction
deriving DecidableEq

/-- Modelled from the spec: a loaded DCC document — source bytes, generic
tree and the optional embedded signature block (section 3). -/
structure Document where
  sourceBytes : List Nat
  tree : GVal
  signatureBlock : Option SignatureRecord
deriving DecidableEq

/-- The outcome of running the signature verifier: the steps executed, and
either the updated status report or the raised signature error. -/
structure VerifyOutcome where
  steps : List VStep
  result : Except SignatureErrorKind StatusReport
deriving DecidableEq

/--
Modelled from the spec: the per-document signature verification state
machine (section 4.5), strictly ordered.  Absence of a signature block is
not an error: it sets IS_SIGNED to fail and halts after the extract step.
Otherwise canonicalization plus the cryptographic check (external primitive
`cryptoOk`) guard integrity, the trust store check covers the chain and
revocation, and the timestamp is extracted last.
-/
def verify_signature (cryptoOk : SignatureRecord → Bool)
    (sigOk : Certificate → Certificate → Bool)
    (revoked : Certificate → Bool) (now : Int) (ts : DCCTrustStore)
    (doc : Document) (report : StatusReport) : VerifyOutcome :=
  match doc.signatureBlock with
  | none => ⟨[.extract], .ok { report with signedState := .fail }⟩
  | some sig =>
      let r1 := { report with signedState := .pass }
      if cryptoOk sig = false then
        ⟨[.extract, .canonicalize, .cryptoCheck], .error .integrity⟩
      else
        match build_chain sigOk now ts sig.signerCert with
        | .error e =>
            ⟨[.extract, .canonicalize, .cryptoCheck, .trustCheck],
              .error (.chain e)⟩
        | .ok chain =>
            match check_revocation revoked chain with
            | .error _ =>
                ⟨[.extract, .canonicalize, .cryptoCheck, .trustCheck],
                  .error .revocation⟩
            | .ok _ =>
                ⟨[.extract, .canonicalize, .cryptoCheck, .trustCheck,
                    .timestampExtraction],
                  .ok { r1 with sigValidState := .pass }⟩

/-- Modelled from the spec: the typed load failure — unreachable source,
decompression failure, or malformed input (sections 4.7, 7). -/
inductive LoadError where
  | fetchFailure
  | decompressFailure
  | parseFailure
deriving DecidableEq

/-- Modelled from the spec: the construction surface of `DCC(...)` — one of
file path, raw byte buffer, compressed byte buffer, or URL (section 6). -/
structure DCCInitArgs where
  xml_file_name : Option String
  byte_array : Option (List Nat)
  compressed_dcc : Option (List Nat)
  url : Option String
deriving DecidableEq

/-- Modelled from the spec: the byte-level compression codec is an excluded
external collaborator whose contract is an exact round-trip; it is modelled
as a length-prefixed encoding whose decoder checks the recorded length. -/
def compress (b : List Nat) : List Nat := b.length :: b

/-- The decoder of the modelled codec: `none` is a decompression failure. -/
def decompress : List Nat → Option (List Nat)
  | [] => none
  | n :: rest => if rest.length = n then some rest else none

/-- The external collaborators of loading: file reading, URL fetching, XML
parsing into the generic tree, and signature-block extraction from the
tree; all are parameters of the model (sections 2, 4.7). -/
structure LoadEnv where
  fileContents : String → Option (List Nat)
  urlFetch : String → Option (List Nat)
  parse : List Nat → Option GVal
  extractSig : GVal → Option SignatureRecord

/--
Modelled from the spec: source selection and byte acquisition of the
loading facade (section 4.7): exactly one source is used, in the
construction-argument order; `none` means no source at all was supplied
(the programmer-error condition); a `some .error` is a typed load failure
at the fetch or decompress stage.
-/
def resolveBytes (env : LoadEnv) (args : DCCInitArgs) :
    Option (Except LoadError (List Nat)) :=
  match args.xml_file_name with
  | some p =>
      some (match env.fileContents p with
            | some b => .ok b
            | none => .error .fetchFailure)
  | none =>
      match args.byte_array with
      | some b => some (.ok b)
      | none =>
          match args.compressed_dcc with
          | some cb =>
              some (match decompress cb with
                    | some b => .ok b
                    | none => .error .decompressFailure)
          | none =>
              match args.url with
              | some u =>
                  some (match env.urlFetch u with
                        | some b => .ok b
                        | none => .error .fetchFailure)
              | none => none

/-- The outcome of constructing a DCC document: the fatal no-source
programmer error, a typed load failure with the resulting status report, a
raised signature error, or the loaded document with its report. -/
inductive LoadOutcome where
  | fatalNoSource
  | loadFailed : LoadError → StatusReport → LoadOutcome
  | signatureFailed : SignatureErrorKind → LoadOutcome
  | ok : Document → StatusReport → LoadOutcome
deriving DecidableEq

/-- The status report as first built during a load attempt. -/
def freshReport (loaded : TriState) : StatusReport :=
  ⟨loaded, .notApplicable, .notApplicable, .notApplicable⟩

/--
Modelled from the spec: the loading facade (sections 4.5, 4.7).  No source
at all is the fatal programmer-error condition; a failure at the fetch,
decompress or parse stage yields a typed `LoadError` with IS_LOADED = fail;
on success, with a trust store supplied the full signature verifier runs
and its errors propagate, while without one only the extract step's
IS_SIGNED verdict is recorded and VALID_SIGNATURE stays unset.
-/
def dccLoad (env : LoadEnv) (cryptoOk : SignatureRecord → Bool)
    (sigOk : Certificate → Certificate → Bool)
    (revoked : Certificate → Bool) (now : Int) (args : DCCInitArgs)
    (trust_store : Option DCCTrustStore) : LoadOutcome :=
  match resolveBytes env args with
  | none => .fatalNoSource
  | some (.error e) => .loadFailed e (freshReport .fail)
  | some (.ok b) =>
      match env.parse b with
      | none => .loadFailed .parseFailure (freshReport .fail)
      | some tree =>
          let doc : Document := ⟨b, tree, env.extractSig tree⟩
          let report := freshReport .pass
          match trust_store with
          | none =>
              .ok doc { report with
                signedState :=
                  if doc.signatureBlock.isSome then .pass else .fail }
          | some ts =>
              match (verify_signature cryptoOk sigOk revoked now ts doc
                  report).result with
              | .ok r => .ok doc r
              | .error e => .signatureFailed e

/--
C1: for every document whose signature verification is explicitly requested
at load time (a trust store is supplied), a failed integrity check, chain
check, or revocation check makes loading raise a `SignatureError` whose
sub-kind identifies the failed check — never an `ok` outcome with a
boolean flag.
-/
theorem load_with_trust_store_signature_error_kinds
    (env : LoadEnv) (cryptoOk : SignatureRecord → Bool)
    (sigOk : Certificate → Certificate → Bool)
    (revoked : Certificate → Bool) (now : Int) (args : DCCInitArgs)
    (ts : DCCTrustStore) (b : List Nat) (tree : GVal)
    (sig : SignatureRecord)
    (hres : resolveBytes env args = some (.ok b))
    (hparse : env.parse b = some tree)
    (hsig : env.extractSig tree = some sig) :
    (cryptoOk sig = false →
      dccLoad env cryptoOk sigOk revoked now args (some ts)
        = .signatureFailed .integrity) ∧
    (∀ e, cryptoOk sig = true →
      build_chain sigOk now ts sig.signerCert = .error e →
      dccLoad env cryptoOk sigOk revoked now args (some ts)
        = .signatureFailed (.chain e)) ∧
    (∀ chain, cryptoOk sig = true →
      build_chain sigOk now ts sig.signerCert = .ok chain →
      check_revocation revoked chain = .error .revoked →
      dccLoad env cryptoOk sigOk revoked now args (some ts)
        = .signatureFailed .revocation) := by
  refine ⟨?_, ?_, ?_⟩
  · intro hc
    simp only [dccLoad, hres, hparse, verify_signature, hsig, hc]
    simp
  · intro e hc he
    simp only [dccLoad, hres, hparse, verify_signature, hsig, hc, he]
    simp
  · intro chain hc hch hrev
    simp only [dccLoad, hres, hparse, verify_signature, hsig, hc, hch, hrev]
    simp

/-- A root certificate for the concrete verification scenarios. -/
def rootCert : Certificate := ⟨"root", "root", 0, 100⟩

/-- A signer certificate issued directly by the root. -/
def signerCert : Certificate := ⟨"signer", "root", 0, 100⟩

/-- The signature record of the concrete signed document. -/
def sigRec : SignatureRecord := ⟨signerCert, [1], "2023-03-27T15:14:30Z"⟩

/-- A load environment whose parser always succeeds and whose extraction
finds the embedded signature block. -/
def envSigned : LoadEnv :=
  ⟨fun _ => none, fun _ => none, fun _ => some (.scalar "doc"),
    fun _ => some sigRec⟩

/-- Construction arguments carrying a raw byte buffer. -/
def argsBytes : DCCInitArgs := ⟨none, some [7], none, none⟩

/-- A trust store holding the root of the scenario. -/
def tsRoot : DCCTrustStore := ⟨some rootCert, []⟩

/-- A trust store with no root loaded: no chain can be built. -/
def tsEmpty : DCCTrustStore := ⟨none, []⟩

/-- The issuer-to-subject link check of the concrete scenarios. -/
def sigOkByName (c p : Certificate) : Bool := c.issuer == p.subject

/-- The C1 theorem evaluated on three concrete scenarios: a failing
cryptographic check raises the integrity sub-kind, an unbuildable chain the
chain sub-kind, and a revoked signer the revocation sub-kind. -/
theorem load_with_trust_store_signature_error_kinds_witness :
    dccLoad envSigned (fun _ => false) sigOkByName (fun _ => false) 5
        argsBytes (some tsRoot) = .signatureFailed .integrity ∧
    dccLoad envSigned (fun _ => true) sigOkByName (fun _ => false) 5
        argsBytes (some tsEmpty) = .signatureFailed (.chain .chainBroken) ∧
    dccLoad envSigned (fun _ => true) sigOkByName (fun _ => true) 5
        argsBytes (some tsRoot) = .signatureFailed .revocation :=
  ⟨(load_with_trust_store_signature_error_kinds envSigned (fun _ => false)
      sigOkByName (fun _ => false) 5 argsBytes tsRoot [7] (.scalar "doc")
      sigRec rfl rfl rfl).1 rfl,
   (load_with_trust_store_signature_error_kinds envSigned (fun _ => true)
      sigOkByName (fun _ => false) 5 argsBytes tsEmpty [7] (.scalar "doc")
      sigRec rfl rfl rfl).2.1 .chainBroken rfl (by decide),
   (load_with_trust_store_signature_error_kinds envSigned (fun _ => true)
      sigOkByName (fun _ => true) 5 argsBytes tsRoot [7] (.scalar "doc")
      sigRec rfl rfl rfl).2.2 [signerCert, rootCert] rfl (by decide)
      (by decide)⟩

/--
C2: for every loaded document containing no embedded signature block, the
status report has `is_signed == false` and `valid_signature` unset, for
every possible trust store (supplied or not); absence of a signature is not
an error, and the verifier halts after the extract step.
-/
theorem unsigned_document_is_signed_false_valid_signature_unset
    (env : LoadEnv) (cryptoOk : SignatureRecord → Bool)
    (sigOk : Certificate → Certificate → Bool)
    (revoked : Certificate → Bool) (now : Int) (args : DCCInitArgs)
    (trust_store : Option DCCTrustStore) (b : List Nat) (tree : GVal)
    (hres : resolveBytes env args = some (.ok b))
    (hparse : env.parse b = some tree)
    (hsig : env.extractSig tree = none) :
    (∃ doc r, dccLoad env cryptoOk sigOk revoked now args trust_store
        = .ok doc r ∧
      r.is_signed = false ∧ r.valid_signature = none) ∧
    (∀ (ts : DCCTrustStore) (report : StatusReport),
      report.sigValidState = .notApplicable →
      (verify_signature cryptoOk sigOk revoked now ts ⟨b, tree, none⟩
          report).steps = [VStep.extract] ∧
      ∃ r', (verify_signature cryptoOk sigOk revoked now ts ⟨b, tree, none⟩
          report).result = .ok r' ∧
        r'.is_signed = false ∧ r'.valid_signature = none) := by
  constructor
  · refine ⟨⟨b, tree, none⟩,
      ⟨.pass, .notApplicable, .fail, .notApplicable⟩, ?_, rfl, rfl⟩
    cases trust_store with
    | none =>
        simp only [dccLoad, hres, hparse, hsig]
        rfl
    | some ts =>
        simp only [dccLoad, hres, hparse, hsig, verify_signature]
        rfl
  · intro ts report hNA
    refine ⟨rfl, { report with signedState := .fail }, rfl, rfl, ?_⟩
    simp [StatusReport.valid_signature, hNA]

/-- A load environment whose extraction finds no signature block. -/
def envUnsigned : LoadEnv :=
  ⟨fun _ => none, fun _ => none, fun _ => some (.scalar "doc"),
    fun _ => none⟩

/-- The C2 theorem evaluated concretely: loading an unsigned document with a
trust store supplied gives `is_signed = false`, `valid_signature` unset,
and a verifier that stops after the extract step. -/
theorem unsigned_document_status_witness :
    (∃ doc r, dccLoad envUnsigned (fun _ => true) sigOkByName (fun _ => false)
        5 argsBytes (some tsRoot) = .ok doc r ∧
      r.is_signed = false ∧ r.valid_signature = none) ∧
    (verify_signature (fun _ => true) sigOkByName (fun _ => false) 5 tsRoot
        ⟨[7], .scalar "doc", none⟩ (freshReport .pass)).steps
      = [VStep.extract] :=
  ⟨(unsigned_document_is_signed_false_valid_signature_unset envUnsigned
      (fun _ => true) sigOkByName (fun _ => false) 5 argsBytes (some tsRoot)
      [7] (.scalar "doc") rfl rfl rfl).1,
   ((unsigned_document_is_signed_false_valid_signature_unset envUnsigned
      (fun _ => true) sigOkByName (fun _ => false) 5 argsBytes (some tsRoot)
      [7] (.scalar "doc") rfl rfl rfl).2 tsRoot (freshReport .pass) rfl).1⟩

/--
C8: constructing a DCC document with no source at all is the fatal
programmer-error condition, whereas a failure at any real loading stage
(fetch, decompress, parse) yields a typed `LoadError` outcome whose status
report has IS_LOADED = fail.
-/
theorem dcc_construction_source_contract (env : LoadEnv)
    (cryptoOk : SignatureRecord → Bool)
    (sigOk : Certificate → Certificate → Bool)
    (revoked : Certificate → Bool) (now : Int)
    (trust_store : Option DCCTrustStore) :
    dccLoad env cryptoOk sigOk revoked now ⟨none, none, none, none⟩
        trust_store = .fatalNoSource ∧
    (∀ p, env.fileContents p = none →
      resolveBytes env ⟨some p, none, none, none⟩
        = some (.error .fetchFailure)) ∧
    (∀ cb, decompress cb = none →
      resolveBytes env ⟨none, none, some cb, none⟩
        = some (.error .decompressFailure)) ∧
    (∀ u, env.urlFetch u = none →
      resolveBytes env ⟨none, none, none, some u⟩
        = some (.error .fetchFailure)) ∧
    (∀ args e, resolveBytes env args = some (.error e) →
      dccLoad env cryptoOk sigOk revoked now args trust_store
        = .loadFailed e (freshReport .fail) ∧
      (freshReport .fail).stateOf .IS_LOADED = .fail) ∧
    (∀ args b, resolveBytes env args = some (.ok b) → env.parse b = none →
      dccLoad env cryptoOk sigOk revoked now args trust_store
        = .loadFailed .parseFailure (freshReport .fail) ∧
      (freshReport .fail).stateOf .IS_LOADED = .fail) := by
  refine ⟨rfl, ?_, ?_, ?_, ?_, ?_⟩
  · intro p hp
    simp only [resolveBytes, hp]
  · intro cb hcb
    simp only [resolveBytes, hcb]
  · intro u hu
    simp only [resolveBytes, hu]
  · intro args e h
    exact ⟨by simp only [dccLoad, h], rfl⟩
  · intro args b hres hparse
    exact ⟨by simp only [dccLoad, hres, hparse], rfl⟩

/-- A load environment whose parser always fails. -/
def envNoParse : LoadEnv :=
  ⟨fun _ => none, fun _ => none, fun _ => none, fun _ => none⟩

/-- The C8 theorem evaluated concretely: no source is fatal; a missing file,
an undecodable compressed buffer, and an unparseable byte buffer each give
the matching typed `LoadError` with IS_LOADED = fail. -/
theorem dcc_construction_source_contract_witness :
    dccLoad envNoParse (fun _ => true) sigOkByName (fun _ => false) 5
        ⟨none, none, none, none⟩ none = .fatalNoSource ∧
    dccLoad envNoParse (fun _ => true) sigOkByName (fun _ => false) 5
        ⟨some "a.xml", none, none, none⟩ none
      = .loadFailed .fetchFailure (freshReport .fail) ∧
    dccLoad envNoParse (fun _ => true) sigOkByName (fun _ => false) 5
        ⟨none, none, some [], none⟩ none
      = .loadFailed .decompressFailure (freshReport .fail) ∧
    dccLoad envNoParse (fun _ => true) sigOkByName (fun _ => false) 5
        ⟨none, some [7], none, none⟩ none
      = .loadFailed .parseFailure (freshReport .fail) := by
  have h := dcc_construction_source_contract envNoParse (fun _ => true)
    sigOkByName (fun _ => false) 5 none
  exact ⟨h.1,
    (h.2.2.2.2.1 ⟨some "a.xml", none, none, none⟩ .fetchFailure
      (h.2.1 "a.xml" rfl)).1,
    (h.2.2.2.2.1 ⟨none, none, some [], none⟩ .decompressFailure
      (h.2.2.1 [] rfl)).1,
    (h.2.2.2.2.2 ⟨none, some [7], none, none⟩ [7] rfl rfl).1⟩

/--
C6: for every byte string, the compressed encoding round-trips exactly to
the original bytes, loading the raw bytes and loading the compressed
encoding produce identical outcomes, and therefore every accessor — any
function of the loaded document — returns equal outputs on the two
documents.
-/
theorem load_compressed_round_trip (env : LoadEnv)
    (cryptoOk : SignatureRecord → Bool)
    (sigOk : Certificate → Certificate → Bool)
    (revoked : Certificate → Bool) (now : Int)
    (trust_store : Option DCCTrustStore) (b : List Nat) :
    decompress (compress b) = some b ∧
    dccLoad env cryptoOk sigOk revoked now ⟨none, some b, none, none⟩
        trust_store
      = dccLoad env cryptoOk sigOk revoked now
          ⟨none, none, some (compress b), none⟩ trust_store ∧
    (∀ {α : Type} (f : Document → α) d r d' r',
      dccLoad env cryptoOk sigOk revoked now ⟨none, some b, none, none⟩
          trust_store = .ok d r →
      dccLoad env cryptoOk sigOk revoked now
          ⟨none, none, some (compress b), none⟩ trust_store = .ok d' r' →
      f d = f d') := by
  have hrt : decompress (compress b) = some b := by
    simp [compress, decompress]
  have heq : dccLoad env cryptoOk sigOk revoked now
      ⟨none, some b, none, none⟩ trust_store
      = dccLoad env cryptoOk sigOk revoked now
          ⟨none, none, some (compress b), none⟩ trust_store := by
    simp only [dccLoad, resolveBytes, hrt]
  refine ⟨hrt, heq, ?_⟩
  intro α f d r d' r' h1 h2
  rw [heq, h2] at h1
  cases h1
  rfl

/-- The C6 theorem evaluated concretely: the codec round-trips `[7, 9]`, the
two load paths agree, and the loaded documents' trees coincide. -/
theorem load_compressed_round_trip_witness :
    decompress (compress [7, 9]) = some [7, 9] ∧
    dccLoad envUnsigned (fun _ => true) sigOkByName (fun _ => false) 5
        ⟨none, some [7, 9], none, none⟩ none
      = dccLoad envUnsigned (fun _ => true) sigOkByName (fun _ => false) 5
          ⟨none, none, some (compress [7, 9]), none⟩ none ∧
    Document.tree ⟨[7, 9], .scalar "doc", none⟩
      = Document.tree ⟨[7, 9], .scalar "doc", none⟩ := by
  have h := load_compressed_round_trip envUnsigned (fun _ => true)
    sigOkByName (fun _ => false) 5 none [7, 9]
  exact ⟨h.1, h.2.1,
    h.2.2 Document.tree ⟨[7, 9], .scalar "doc", none⟩
      ⟨.pass, .notApplicable, .fail, .notApplicable⟩
      ⟨[7, 9], .scalar "doc", none⟩
      ⟨.pass, .notApplicable, .fail, .notApplicable⟩ rfl rfl⟩

/-- Modelled from the spec: one localized name entry of an identification
(`{'@lang': ..., '#text': ...}` in the fixture of the tests). -/
structure LocalizedName where
  lang : String
  text : String
deriving DecidableEq

/-- Modelled from the spec: one identification of the item — issuer, value
and localized names (section 4.7 and the `item_id` fixture of the tests). -/
structure Identification where
  issuer : String
  value : String
  names : List LocalizedName
deriving DecidableEq

/-- A localized name entry matches the queried name under the optional
language filter. -/
def identNameMatches (name : String) (lang : Option String)
    (n : LocalizedName) : Bool :=
  n.text == name &&
    (match lang with
     | some l => n.lang == l
     | none => true)

/-- An identification matches the queried name under the optional language
and issuer filters. -/
def identMatches (name : String) (lang issuer : Option String)
    (i : Identification) : Bool :=
  (match issuer with
   | some iss => i.issuer == iss
   | none => true) &&
  i.names.any (identNameMatches name lang)

/--
Modelled from the spec: `get_item_id_by_name(name, lang?, issuer?)` returns
the value of the first identification whose localized name text equals
`name` after the optional narrowing filters (section 4.7).  The no-match
result is pinned by the repository's own test
(`test_get_item_id_by_name_none`, src/tests/unit_test.py:247-249), which
asserts it is Python `None` — not the string `"not found"` the design
document claims.
-/
def get_item_id_by_name (idents : List Identification) (name : String)
    (lang issuer : Option String) : Option String :=
  match idents with
  | [] => none
  | i :: rest =>
      if identMatches name lang issuer i then some i.value
      else get_item_id_by_name rest name lang issuer

/-- The identifications of the reference temperature-certificate fixture,
as listed in `test_item_id` (src/tests/unit_test.py:220-233). -/
def gpIdentifications : List Identification :=
  [⟨"manufacturer", "string-manufacturer-item",
      [⟨"de", "Serien Nr."⟩, ⟨"en", "Serial no."⟩]⟩,
   ⟨"customer", "string-customer-item",
      [⟨"de", "Messmittel Nr."⟩, ⟨"en", "Measurement equipment no."⟩]⟩,
   ⟨"calibrationLaboratory", "string-calibrationLaboratory-item",
      [⟨"de", "Equipment Nr."⟩, ⟨"en", "Equipment no."⟩]⟩]

/--
C7 counterexample: on the fixture identifications, querying the English
name under language `"de"` yields `none` — the Python `None` the
repository's test asserts — and in particular not a `"not found"` string
value, contradicting the claim's stated return.
-/
theorem get_item_id_by_name_none_not_string_cex :
    get_item_id_by_name gpIdentifications "Serial no." (some "de") none
        = none ∧
    get_item_id_by_name gpIdentifications "Serial no." (some "de") none
        ≠ some "not found" :=
  ⟨by decide, by decide⟩

/--
C7 amended: `get_item_id_by_name` returns the value of the first
identification whose localized name text equals `name`, after narrowing by
the optional language and issuer filters; when no identification matches it
returns `None` (an absent value, not the string `"not found"`), never an
error.
-/
theorem get_item_id_by_name_first_match (idents : List Identification)
    (name : String) (lang issuer : Option String) :
    get_item_id_by_name idents name lang issuer
      = (idents.find? (identMatches name lang issuer)).map
          Identification.value := by
  induction idents with
  | nil => rfl
  | cons i rest ih =>
      by_cases h : identMatches name lang issuer i = true <;>
        simp [get_item_id_by_name, List.find?_cons, h, ih]
